import Mathlib

/-!
Shallow embedding of `science/exe.py`, the command-line front end of the
science scie-building tool, together with spec-modelled stand-ins for the
few collaborators (`science/platform.py`, `science/commands/lift.py`,
`science/commands/build.py`) that the claims reference but whose source is
not part of this repository snapshot.  Stateful command bodies are embedded
as pure functions producing an event trace plus a result, so that ordering
properties ("before any sandbox work") and failure properties ("no partial
output") become statements about the trace.
-/

namespace Science

/-- Modelled from the spec: `science/platform.py` is missing from the
snapshot; the spec describes `Platform` as a fixed enumeration of supported
(OS, architecture) pairs (the values used by science). -/
inductive Platform where
  | linux_aarch64
  | linux_x86_64
  | macos_aarch64
  | macos_x86_64
  | windows_x86_64
deriving DecidableEq, Repr

/-- A declared digest: size plus content fingerprint (spec section 3). -/
structure Digest where
  size : Nat
  fingerprint : String
deriving DecidableEq, Repr

/-- A file source: none (caller supplies the bytes), a URL carrying a lazy
flag, or a binding command (spec section 3, `File`). -/
inductive Source where
  | none
  | url (lazy : Bool)
  | bindingCommand (command : String)
deriving DecidableEq, Repr

/-- A declared file entry of the manifest model. -/
structure File where
  id : String
  digest : Option Digest
  source : Source
deriving DecidableEq, Repr

/-- A declared interpreter entry of the manifest model.  The laziness flag
is the declared one (spec section 4.4: interpreters default eager unless
declared lazy). -/
structure Interpreter where
  id : String
  provider : String
  version : String
  lazy : Bool
deriving DecidableEq, Repr

/-- A release version of the scie-jump native assembler, as compared by
`packaging.version` on release triples such as `0.9.0`. -/
structure SJVersion where
  major : Nat
  minor : Nat
  micro : Nat
deriving DecidableEq, Repr

/-- Strict lexicographic order on release triples, the order
`packaging.version` uses on plain release versions. -/
def SJVersion.lt (a b : SJVersion) : Bool :=
  Nat.blt a.major b.major ||
    (a.major == b.major &&
      (Nat.blt a.minor b.minor || (a.minor == b.minor && Nat.blt a.micro b.micro)))

/-- Render a version the way `str` renders a `packaging.version.Version`
release triple. -/
def SJVersion.render (v : SJVersion) : String :=
  toString v.major ++ "." ++ toString v.minor ++ "." ++ toString v.micro

/-- The optional `[lift.scie_jump]` table: an optional required assembler
version. -/
structure ScieJump where
  version : Option SJVersion
deriving DecidableEq, Repr

/-- The root manifest model entity (spec section 3, `Application`):
immutable after parse.  `platforms` is a `frozenset` in the source. -/
structure Application where
  name : String
  description : Option String
  interpreters : List Interpreter
  files : List File
  platforms : Finset Platform
  scieJump : Option ScieJump
  appInfo : List (String × String)
deriving DecidableEq

/-- A `--app-info KEY=VALUE` override (parsed by `AppInfo.parse`). -/
structure AppInfo where
  key : String
  value : String
deriving DecidableEq, Repr

/-- A `--file NAME=LOCATION` mapping (parsed by `FileMapping.parse`). -/
structure FileMapping where
  name : String
  location : String
deriving DecidableEq, Repr

/-- The configuration object the `lift` command group hands to its
subcommands (`science.commands.lift.LiftConfig`).  `invert_lazy_ids` is a
`frozenset` in the source, embedded as a `Finset`. -/
structure LiftConfig where
  fileMappings : List FileMapping
  invertLazyIds : Finset String
  includeProvenance : Bool
  appInfo : List AppInfo
  appName : Option String
deriving DecidableEq

/-- The body of the `_lift` group callback (`science/exe.py`, lines
277-296): it packages the command-line options into a `LiftConfig`, taking
the `frozenset` of the repeated `--invert-lazy` ids and forcing provenance
inclusion whenever any `--app-info` override is present
(`include_provenance or bool(app_info)`). -/
def _lift (fileMappings : List FileMapping) (invertLazyIds : List String)
    (includeProvenance : Bool) (appName : Option String) (appInfo : List AppInfo) :
    LiftConfig :=
  { fileMappings := fileMappings
    invertLazyIds := invertLazyIds.toFinset
    includeProvenance := includeProvenance || !appInfo.isEmpty
    appInfo := appInfo
    appName := appName }

/-- `parse_application` (`science/exe.py`, lines 342-346): parse the config
(the parsed `Application` is taken as input here) and, when
`lift_config.app_name` is truthy (in Python an empty string is falsy, like
`None`), replace the `name` field via `dataclasses.replace`. -/
def parse_application (liftConfig : LiftConfig) (parsed : Application) : Application :=
  match liftConfig.appName with
  | some appName => if appName = "" then parsed else { parsed with name := appName }
  | none => parsed

/-- The platform view handed around by the commands: the current host
platform and whether output names need a disambiguating suffix. -/
structure PlatformInfo where
  current : Platform
  useSuffix : Bool
deriving DecidableEq, Repr

/-- Modelled from the spec: `PlatformInfo.create` lives in
`science/commands/lift.py`, which is missing from the snapshot.  Per the
spec (sections 3 and 4.2) the suffix is required exactly when more than one
platform will be built from the same invocation, or when explicitly forced.
The host platform is passed explicitly here (`Platform.current()` in the
source). -/
def PlatformInfo.create (application : Application) (useSuffix : Bool)
    (current : Platform) : PlatformInfo :=
  { current := current
    useSuffix := useSuffix || decide (1 < application.platforms.card) }

/-- The platform-narrowing step of `_build` (`science/exe.py`, lines
461-469): the requested platforms are restricted to the current host
exactly when `use_jump and use_platform_suffix` holds. -/
def narrowedPlatforms (application : Application) (platformInfo : PlatformInfo)
    (useJump usePlatformSuffix : Bool) : Finset Platform :=
  if useJump && usePlatformSuffix then {platformInfo.current} else application.platforms

/-- One assembled scie, as returned by `build.assemble_scies`: the produced
executable and its checksum sidecar files (paths embedded as names). -/
structure ScieAssembly where
  scie : String
  hashes : List String
deriving DecidableEq, Repr

/-- The result of `build.assemble_scies`: the assemblies plus the native
jump binary used. -/
structure AssemblyInfo where
  scies : List ScieAssembly
  nativeJump : String
deriving DecidableEq, Repr

/-- Observable steps of the `_build` command body, in program order. -/
inductive BuildEvent where
  | warnCustomJump
  | warnRestrict
  | createSandbox
  | assembleScies
  | mkdirDestDir
  | move (name : String)
  | preserveNote
deriving DecidableEq, Repr

/-- The `sys.exit` message of the scie-jump version gate (`science/exe.py`,
lines 475-478); `sys.argv[0]` is abstracted to the program name. -/
def scieJumpVersionError (v : SJVersion) : String :=
  "A scie-jump version of " ++ v.render ++
    " was requested but science requires at least 0.9.0."

/-- The per-scie move loop of `_build` (`science/exe.py`, lines 497-508):
move the scie, then each checksum file, then (when the sandbox is
preserved) symlink the native jump into the sandbox and note its path. -/
def scieMoves (preserveSandbox : Bool) (scies : List ScieAssembly) : List BuildEvent :=
  scies.flatMap fun s =>
    BuildEvent.move s.scie ::
      (s.hashes.map BuildEvent.move ++
        if preserveSandbox then [BuildEvent.preserveNote] else [])

/-- The sandboxed tail of `_build` (`science/exe.py`, lines 480-508): enter
the temporary directory, run `build.assemble_scies` (abstracted as the
`assembleFn` oracle; an exception propagates out of the `with` block), then
make the destination directory and move the finished artifacts into it. -/
def _buildAssemble (preserveSandbox : Bool) (platforms : Finset Platform)
    (assembleFn : Finset Platform → Except String AssemblyInfo) :
    List BuildEvent × Except String Unit :=
  match assembleFn platforms with
  | Except.error e =>
      ([BuildEvent.createSandbox, BuildEvent.assembleScies], Except.error e)
  | Except.ok info =>
      ([BuildEvent.createSandbox, BuildEvent.assembleScies, BuildEvent.mkdirDestDir] ++
          scieMoves preserveSandbox info.scies,
        Except.ok ())

/-- The two warnings logged when a custom scie jump build is combined with
the forced platform suffix (`science/exe.py`, lines 462-468); they precede
the narrowing in program order. -/
def buildWarnings (useJump usePlatformSuffix : Bool) : List BuildEvent :=
  if useJump && usePlatformSuffix then
    [BuildEvent.warnCustomJump, BuildEvent.warnRestrict]
  else []

/-- Prefix a trace-and-result pair with earlier events. -/
def withWarnings (warnings : List BuildEvent)
    (rest : List BuildEvent × Except String Unit) :
    List BuildEvent × Except String Unit :=
  (warnings ++ rest.1, rest.2)

/-- The `_build` command body (`science/exe.py`, lines 444-508) as a trace
plus result: compute the platform info, narrow the platforms when
`use_jump and use_platform_suffix` (emitting the two warnings), exit if a
declared scie-jump version is below 0.9.0, and only then enter the sandbox
and assemble.  `assembleFn` abstracts `build.assemble_scies`. -/
def _build (application : Application) (current : Platform)
    (usePlatformSuffix preserveSandbox useJump : Bool)
    (assembleFn : Finset Platform → Except String AssemblyInfo) :
    List BuildEvent × Except String Unit :=
  match application.scieJump.bind (fun sj => sj.version) with
  | some v =>
      if SJVersion.lt v ⟨0, 9, 0⟩ then
        (buildWarnings useJump usePlatformSuffix,
          Except.error (scieJumpVersionError v))
      else
        withWarnings (buildWarnings useJump usePlatformSuffix)
          (_buildAssemble preserveSandbox
            (narrowedPlatforms application
              (PlatformInfo.create application usePlatformSuffix current) useJump
              usePlatformSuffix)
            assembleFn)
  | none =>
      withWarnings (buildWarnings useJump usePlatformSuffix)
        (_buildAssemble preserveSandbox
          (narrowedPlatforms application
            (PlatformInfo.create application usePlatformSuffix current) useJump
            usePlatformSuffix)
          assembleFn)

/-- The names moved into the destination directory along a trace. -/
def movesOf (events : List BuildEvent) : List String :=
  events.filterMap fun e =>
    match e with
    | BuildEvent.move n => some n
    | _ => none

/-- One piece of the fatal-error output written to stderr. -/
inductive LogSegment where
  | backtrace (tb : String)
  | exceptionType (ty : String)
  | message (msg : String)
deriving DecidableEq, Repr

/-- `_log_fatal` (`science/exe.py`, lines 37-50): when
`always_include_backtrace or not isinstance(value, InputError)` holds, the
formatted traceback and the qualified exception type are written first; the
error message is always written last. -/
def _log_fatal (isInputError alwaysIncludeBacktrace : Bool)
    (tb ty msg : String) : List LogSegment :=
  (if alwaysIncludeBacktrace || !isInputError then
      [LogSegment.backtrace tb, LogSegment.exceptionType ty]
    else []) ++ [LogSegment.message msg]

/-- Whether a source is a URL source. -/
def Source.isUrl : Source → Bool
  | Source.url _ => true
  | _ => false

/-- Invert the lazy flag of a URL source; other sources are untouched (they
are never toggle-eligible). -/
def Source.invertLazy : Source → Source
  | Source.url lazy => Source.url (!lazy)
  | s => s

/-- Modelled from the spec: toggle eligibility of a laziness-override id
(spec sections 3 and 4.4, and the `--invert-lazy` help in `science/exe.py`,
lines 134-179): only interpreter distributions and files with URL sources
can be toggled. -/
def toggleEligible (interpreters : List Interpreter) (files : List File)
    (id : String) : Bool :=
  interpreters.any (fun i => i.id == id) ||
    files.any (fun f => f.id == id && f.source.isUrl)

/-- Modelled from the spec: the Laziness Classifier of
`science/commands/lift.py` (missing from the snapshot; spec section 4.4):
start from the declared flags, reject any override id that is not
toggle-eligible (the error names the offending ids), otherwise invert the
flag of each id present in the override set. -/
def applyLazinessOverrides (interpreters : List Interpreter) (files : List File)
    (overrides : Finset String) :
    Except (List String) (List Interpreter × List File) :=
  if ((overrides.filter fun id =>
      !toggleEligible interpreters files id).sort (· ≤ ·)).isEmpty then
    Except.ok
      (interpreters.map fun i =>
          if i.id ∈ overrides then { i with lazy := !i.lazy } else i,
        files.map fun f =>
          if f.id ∈ overrides then { f with source := f.source.invertLazy } else f)
  else
    Except.error
      ((overrides.filter fun id =>
        !toggleEligible interpreters files id).sort (· ≤ ·))

/-- Observable steps of the lift pipeline around the Laziness Classifier. -/
inductive LiftEvent where
  | download (id : String)
  | createSandbox
deriving DecidableEq, Repr

/-- The ids whose bytes are fetched eagerly after classification: eager
interpreters and eager URL-sourced files (spec section 4.5). -/
def eagerDownloadIds (interpreters : List Interpreter) (files : List File) :
    List String :=
  (interpreters.filter fun i => !i.lazy).map Interpreter.id ++
    (files.filter fun f => f.source == Source.url false).map File.id

/-- Modelled from the spec: the lift pipeline orders the Laziness
Classifier strictly before any download or sandbox work (spec section 4.4:
"this check runs before any download or sandbox work"); on classifier
failure nothing is downloaded and no sandbox is created. -/
def liftPipeline (interpreters : List Interpreter) (files : List File)
    (overrides : Finset String) :
    List LiftEvent × Except (List String) (List Interpreter × List File) :=
  match applyLazinessOverrides interpreters files overrides with
  | Except.error bad => ([], Except.error bad)
  | Except.ok (is, fs) =>
      ((eagerDownloadIds is fs).map LiftEvent.download ++ [LiftEvent.createSandbox],
        Except.ok (is, fs))

/-- A checksum sidecar file produced by the Post-Processor. -/
structure Sidecar where
  output : String
  algorithm : String
  content : String
deriving DecidableEq, Repr

/-- The name of a sidecar file: `<output-name>.<algorithm>`. -/
def Sidecar.fileName (s : Sidecar) : String :=
  s.output ++ "." ++ s.algorithm

/-- Modelled from the spec: the checksum sidecar generation of
`science/commands/build.py` (missing from the snapshot).  Per the spec
(sections 4.7 and 6) and the `--hash` help in `science/exe.py` (lines
409-442, "for each unique `--hash` specified"), one sidecar is written per
distinct requested algorithm, named `<output-name>.<algorithm>`, holding
the hex digest of the final binary under that algorithm followed by
` *<output-name>\n`.  `hashFn` abstracts the hashlib digest functions over
the binary's bytes. -/
def checksumSidecars (hashFn : String → List Nat → String)
    (hashNames : List String) (outputName : String) (binary : List Nat) :
    List Sidecar :=
  hashNames.dedup.map fun a =>
    { output := outputName
      algorithm := a
      content := hashFn a binary ++ " *" ++ outputName ++ "\n" }

/-- A small single-platform application used as a concrete instance. -/
def exampleApp : Application :=
  { name := "example"
    description := none
    interpreters :=
      [{ id := "cpython", provider := "PythonBuildStandalone", version := "3.11", lazy := false }]
    files := [{ id := "example.txt", digest := some ⟨137, "abcd1234"⟩, source := Source.url false }]
    platforms := {Platform.linux_x86_64}
    scieJump := none
    appInfo := [] }

/-- A two-platform application used as a concrete instance. -/
def multiPlatformApp : Application :=
  { exampleApp with platforms := {Platform.linux_x86_64, Platform.macos_x86_64} }

section Theorems

/-- C2: for every application and narrowed target platform set, the
computed `use_suffix` flag is true iff more than one target platform
remains after the `_build` narrowing step or the caller forced the suffix;
in particular it is false for a single platform unless forced and true
whenever more than one platform remains. -/
theorem c2_use_suffix_rule (application : Application) (current : Platform)
    (useJump forced : Bool) :
    (PlatformInfo.create application forced current).useSuffix = true ↔
      (1 < (narrowedPlatforms application
            (PlatformInfo.create application forced current) useJump forced).card ∨
        forced = true) := by
  cases forced with
  | true => simp [PlatformInfo.create]
  | false => simp [PlatformInfo.create, narrowedPlatforms]

/-- C3: if any `--app-info` override is supplied, provenance is included in
the lift configuration regardless of the `--include-provenance` flag; with
no overrides, provenance inclusion equals the flag. -/
theorem c3_app_info_implies_provenance (fileMappings : List FileMapping)
    (invertLazyIds : List String) (includeProvenance : Bool)
    (appName : Option String) (appInfo : List AppInfo) :
    (appInfo ≠ [] →
        (_lift fileMappings invertLazyIds includeProvenance appName
            appInfo).includeProvenance = true) ∧
      (appInfo = [] →
        (_lift fileMappings invertLazyIds includeProvenance appName
            appInfo).includeProvenance = includeProvenance) := by
  constructor
  · intro h
    cases appInfo with
    | nil => exact absurd rfl h
    | cons a l => simp [_lift]
  · intro h
    subst h
    simp [_lift]

/-- C3 witness: one override forces provenance inclusion even with the flag
off; with no overrides the flag value (here `false`) is kept. -/
theorem c3_app_info_implies_provenance_witness :
    ([({ key := "edition", value := "paid" } : AppInfo)] ≠ ([] : List AppInfo)) ∧
      (_lift [] [] false none [{ key := "edition", value := "paid" }]).includeProvenance = true ∧
      (_lift [] [] false none []).includeProvenance = false :=
  ⟨by decide,
    (c3_app_info_implies_provenance [] [] false none
        [{ key := "edition", value := "paid" }]).1 (by decide),
    (c3_app_info_implies_provenance [] [] false none []).2 rfl⟩

/-- C5 counterexample: `--app-name ""` is an override, yet
`parse_application` returns the parsed application unchanged (the Python
guard `if lift_config.app_name:` treats the empty string as absent), so the
result's name is not the override. -/
theorem c5_empty_app_name_counterexample :
    parse_application
        { fileMappings := [], invertLazyIds := ∅, includeProvenance := false,
          appInfo := [], appName := some "" } exampleApp = exampleApp ∧
      exampleApp.name ≠ "" := by
  constructor
  · rfl
  · decide

/-- C5 amended: for every non-empty `--app-name` override the result's
`name` equals the override and every other field is unchanged; with no
override, or with the empty-string override (which Python's truthiness test
ignores), the parsed application is returned unchanged. -/
theorem c5_app_name_override_frame (liftConfig : LiftConfig) (parsed : Application) :
    (∀ n, liftConfig.appName = some n → n ≠ "" →
        (parse_application liftConfig parsed).name = n ∧
          (parse_application liftConfig parsed).description = parsed.description ∧
          (parse_application liftConfig parsed).interpreters = parsed.interpreters ∧
          (parse_application liftConfig parsed).files = parsed.files ∧
          (parse_application liftConfig parsed).platforms = parsed.platforms ∧
          (parse_application liftConfig parsed).scieJump = parsed.scieJump ∧
          (parse_application liftConfig parsed).appInfo = parsed.appInfo) ∧
      (liftConfig.appName = none → parse_application liftConfig parsed = parsed) ∧
      (liftConfig.appName = some "" → parse_application liftConfig parsed = parsed) := by
  refine ⟨?_, ?_, ?_⟩
  · intro n hn hne
    simp [parse_application, hn, hne]
  · intro hn
    simp [parse_application, hn]
  · intro hn
    simp [parse_application, hn]

/-- C5 witness: the override `example-thin` replaces exactly the name of
`exampleApp`. -/
theorem c5_app_name_override_frame_witness :
    ("example-thin" : String) ≠ "" ∧
      (parse_application
            { fileMappings := [], invertLazyIds := ∅, includeProvenance := false,
              appInfo := [], appName := some "example-thin" } exampleApp).name =
          "example-thin" ∧
      (parse_application
            { fileMappings := [], invertLazyIds := ∅, includeProvenance := false,
              appInfo := [], appName := some "example-thin" } exampleApp).platforms =
          exampleApp.platforms :=
  ⟨by decide,
    ((c5_app_name_override_frame
          { fileMappings := [], invertLazyIds := ∅, includeProvenance := false,
            appInfo := [], appName := some "example-thin" } exampleApp).1
        "example-thin" rfl (by decide)).1,
    (((((c5_app_name_override_frame
          { fileMappings := [], invertLazyIds := ∅, includeProvenance := false,
            appInfo := [], appName := some "example-thin" } exampleApp).1
        "example-thin" rfl (by decide)).2).2).2).2.1⟩

/-- C8 counterexample: with verbose output requested
(`always_include_backtrace`), an `InputError` is rendered with the
formatted traceback and exception type too, not as the message only. -/
theorem c8_verbose_input_error_counterexample :
    LogSegment.backtrace "tb" ∈ _log_fatal true true "tb" "ty" "boom" ∧
      _log_fatal true true "tb" "ty" "boom" ≠ [LogSegment.message "boom"] := by
  decide

/-- C8 amended: unless verbose output forces backtraces, an `InputError` is
rendered as the message only; every other failure always additionally
surfaces the formatted traceback and the exception type before the
message. -/
theorem c8_error_rendering (tb ty msg : String) :
    _log_fatal true false tb ty msg = [LogSegment.message msg] ∧
      ∀ alwaysIncludeBacktrace : Bool,
        _log_fatal false alwaysIncludeBacktrace tb ty msg =
          [LogSegment.backtrace tb, LogSegment.exceptionType ty,
            LogSegment.message msg] := by
  constructor
  · rfl
  · intro b
    cases b <;> rfl

/-- C9: the lift configuration depends only on the set of distinct
`--invert-lazy` ids (the source takes their `frozenset`), so repeating an
id any number of times yields the same configuration, and hence the same
build behaviour, as supplying it once. -/
theorem c9_invert_lazy_set_semantics (fileMappings : List FileMapping)
    (ids₁ ids₂ : List String) (includeProvenance : Bool)
    (appName : Option String) (appInfo : List AppInfo)
    (h : ids₁.toFinset = ids₂.toFinset) :
    _lift fileMappings ids₁ includeProvenance appName appInfo =
      _lift fileMappings ids₂ includeProvenance appName appInfo := by
  unfold _lift
  rw [h]

/-- C9 witness: supplying `cpython` twice yields the very same lift
configuration as supplying it once. -/
theorem c9_invert_lazy_set_semantics_witness :
    _lift [] ["cpython", "cpython"] false none [] =
      _lift [] ["cpython"] false none [] :=
  c9_invert_lazy_set_semantics [] ["cpython", "cpython"] ["cpython"] false none []
    (by decide)

/-- The warning prefix of the `_build` trace holds no moves. -/
theorem movesOf_buildWarnings (useJump usePlatformSuffix : Bool) :
    movesOf (buildWarnings useJump usePlatformSuffix) = [] := by
  unfold buildWarnings
  cases useJump && usePlatformSuffix <;> rfl

/-- The warning prefix of the `_build` trace never contains destination,
sandbox or assembly events. -/
theorem not_mem_buildWarnings (useJump usePlatformSuffix : Bool) :
    BuildEvent.mkdirDestDir ∉ buildWarnings useJump usePlatformSuffix ∧
      BuildEvent.createSandbox ∉ buildWarnings useJump usePlatformSuffix ∧
      BuildEvent.assembleScies ∉ buildWarnings useJump usePlatformSuffix := by
  unfold buildWarnings
  cases useJump && usePlatformSuffix <;> simp

/-- `movesOf` distributes over trace concatenation. -/
theorem movesOf_append (l₁ l₂ : List BuildEvent) :
    movesOf (l₁ ++ l₂) = movesOf l₁ ++ movesOf l₂ := by
  simp [movesOf, List.filterMap_append]

/-- Move events mapped over names recover the names. -/
theorem movesOf_map_move (l : List String) :
    movesOf (l.map BuildEvent.move) = l := by
  induction l with
  | nil => rfl
  | cons a l ih =>
      simp only [List.map_cons, movesOf, List.filterMap_cons] at ih ⊢
      rw [ih]

/-- The moves recorded by the per-scie loop are exactly each scie followed
by its checksum files. -/
theorem movesOf_scieMoves (preserveSandbox : Bool) (scies : List ScieAssembly) :
    movesOf (scieMoves preserveSandbox scies) =
      scies.flatMap fun s => s.scie :: s.hashes := by
  induction scies with
  | nil => rfl
  | cons s rest ih =>
      have hsplit : scieMoves preserveSandbox (s :: rest) =
          BuildEvent.move s.scie ::
            ((s.hashes.map BuildEvent.move ++
                (if preserveSandbox then [BuildEvent.preserveNote] else [])) ++
              scieMoves preserveSandbox rest) := by
        simp [scieMoves]
      have hcons : ∀ l : List BuildEvent,
          movesOf (BuildEvent.move s.scie :: l) = s.scie :: movesOf l := by
        intro l
        simp [movesOf, List.filterMap_cons]
      rw [hsplit, hcons, movesOf_append, movesOf_append, movesOf_map_move, ih]
      cases preserveSandbox <;> simp [movesOf]

/-- The sandboxed tail always records entering the sandbox and running the
assembly. -/
theorem mem_buildAssemble_events (preserveSandbox : Bool)
    (platforms : Finset Platform)
    (assembleFn : Finset Platform → Except String AssemblyInfo) :
    BuildEvent.createSandbox ∈ (_buildAssemble preserveSandbox platforms assembleFn).1 ∧
      BuildEvent.assembleScies ∈ (_buildAssemble preserveSandbox platforms assembleFn).1 := by
  unfold _buildAssemble
  cases assembleFn platforms <;> simp

/-- When the declared scie-jump version is below 0.9.0, `_build` stops at
the version gate with only the narrowing warnings emitted. -/
theorem _build_gate (application : Application) (current : Platform)
    (usePlatformSuffix preserveSandbox useJump : Bool)
    (assembleFn : Finset Platform → Except String AssemblyInfo) (v : SJVersion)
    (hv : application.scieJump.bind (fun sj => sj.version) = some v)
    (hlt : SJVersion.lt v ⟨0, 9, 0⟩ = true) :
    _build application current usePlatformSuffix preserveSandbox useJump assembleFn =
      (buildWarnings useJump usePlatformSuffix,
        Except.error (scieJumpVersionError v)) := by
  unfold _build
  rw [hv]
  simp [hlt]

/-- When no declared scie-jump version is below 0.9.0, `_build` continues
into the sandboxed assembly tail. -/
theorem _build_pass (application : Application) (current : Platform)
    (usePlatformSuffix preserveSandbox useJump : Bool)
    (assembleFn : Finset Platform → Except String AssemblyInfo)
    (hpass : ∀ v, application.scieJump.bind (fun sj => sj.version) = some v →
      SJVersion.lt v ⟨0, 9, 0⟩ = false) :
    _build application current usePlatformSuffix preserveSandbox useJump assembleFn =
      withWarnings (buildWarnings useJump usePlatformSuffix)
        (_buildAssemble preserveSandbox
          (narrowedPlatforms application
            (PlatformInfo.create application usePlatformSuffix current) useJump
            usePlatformSuffix)
          assembleFn) := by
  unfold _build
  cases hb : application.scieJump.bind (fun sj => sj.version) with
  | none => rfl
  | some v => simp [hpass v hb]

/-- The destination-directory behaviour of the sandboxed tail, with an
arbitrary benign warning prefix: an assembly failure moves nothing and
never creates the destination directory; a success moves exactly the
assembled scies and their checksum files. -/
theorem buildAssemble_moves_spec (preserveSandbox : Bool)
    (platforms : Finset Platform)
    (assembleFn : Finset Platform → Except String AssemblyInfo)
    (warnings : List BuildEvent) (hw : movesOf warnings = [])
    (hd : BuildEvent.mkdirDestDir ∉ warnings) :
    (∀ e, (withWarnings warnings
            (_buildAssemble preserveSandbox platforms assembleFn)).2 = Except.error e →
        movesOf (withWarnings warnings
            (_buildAssemble preserveSandbox platforms assembleFn)).1 = [] ∧
          BuildEvent.mkdirDestDir ∉
            (withWarnings warnings
              (_buildAssemble preserveSandbox platforms assembleFn)).1) ∧
      ((withWarnings warnings
            (_buildAssemble preserveSandbox platforms assembleFn)).2 = Except.ok () →
        ∃ info, assembleFn platforms = Except.ok info ∧
          movesOf (withWarnings warnings
              (_buildAssemble preserveSandbox platforms assembleFn)).1 =
            info.scies.flatMap fun s => s.scie :: s.hashes) := by
  unfold withWarnings _buildAssemble
  cases hf : assembleFn platforms with
  | error e =>
      refine ⟨fun e' _ => ⟨?_, ?_⟩, fun h => by simp at h⟩
      · rw [movesOf_append, hw]
        rfl
      · simp [hd]
  | ok info =>
      refine ⟨fun e' he' => by simp at he', fun _ => ⟨info, rfl, ?_⟩⟩
      rw [movesOf_append, hw, List.nil_append]
      have hthree : movesOf
          ([BuildEvent.createSandbox, BuildEvent.assembleScies,
              BuildEvent.mkdirDestDir] ++ scieMoves preserveSandbox info.scies) =
          movesOf (scieMoves preserveSandbox info.scies) := by
        rw [movesOf_append]
        rfl
      rw [hthree, movesOf_scieMoves]

/-- C1 (code evaluation at the failing input): with a two-platform manifest
and a custom `--use-jump` build but without the `--use-platform-suffix`
flag, `_build` performs no narrowing and emits no restriction warning — the
full multi-platform set reaches assembly — whereas with a single-platform
manifest and the suffix flag forced the restriction warning fires: the
guard tests the suffix flag, not multi-platformness. -/
theorem c1_use_jump_multiplatform_not_narrowed :
    narrowedPlatforms multiPlatformApp
        (PlatformInfo.create multiPlatformApp false Platform.linux_x86_64) true false =
      multiPlatformApp.platforms ∧
    1 < multiPlatformApp.platforms.card ∧
    BuildEvent.warnRestrict ∉
      (_build multiPlatformApp Platform.linux_x86_64 false false true fun _ =>
        Except.ok { scies := [], nativeJump := "scie-jump" }).1 ∧
    (_build multiPlatformApp Platform.linux_x86_64 false false true fun ps =>
        if ps = multiPlatformApp.platforms then
          Except.error "cross-platform assembly attempted"
        else Except.ok { scies := [], nativeJump := "scie-jump" }).2 =
      Except.error "cross-platform assembly attempted" ∧
    exampleApp.platforms.card = 1 ∧
    BuildEvent.warnRestrict ∈
      (_build exampleApp Platform.linux_x86_64 true false true fun _ =>
        Except.ok { scies := [], nativeJump := "scie-jump" }).1 := by
  refine ⟨rfl, by decide, by decide, rfl, by decide, by decide⟩

/-- C4: `_build` moves nothing into the destination directory (and does not
even create it) unless assembly succeeded; on success the moved artifacts
are exactly the assembled scies and their checksum sidecars. -/
theorem c4_no_partial_output (application : Application) (current : Platform)
    (usePlatformSuffix preserveSandbox useJump : Bool)
    (assembleFn : Finset Platform → Except String AssemblyInfo) :
    (∀ e, (_build application current usePlatformSuffix preserveSandbox useJump
          assembleFn).2 = Except.error e →
        movesOf (_build application current usePlatformSuffix preserveSandbox useJump
            assembleFn).1 = [] ∧
          BuildEvent.mkdirDestDir ∉
            (_build application current usePlatformSuffix preserveSandbox useJump
              assembleFn).1) ∧
      ((_build application current usePlatformSuffix preserveSandbox useJump
          assembleFn).2 = Except.ok () →
        ∃ info,
          assembleFn
              (narrowedPlatforms application
                (PlatformInfo.create application usePlatformSuffix current) useJump
                usePlatformSuffix) = Except.ok info ∧
            movesOf (_build application current usePlatformSuffix preserveSandbox useJump
                assembleFn).1 = info.scies.flatMap fun s => s.scie :: s.hashes) := by
  by_cases hgate : ∃ v, application.scieJump.bind (fun sj => sj.version) = some v ∧
      SJVersion.lt v ⟨0, 9, 0⟩ = true
  · obtain ⟨v, hv, hlt⟩ := hgate
    rw [_build_gate application current usePlatformSuffix preserveSandbox useJump
        assembleFn v hv hlt]
    refine ⟨fun e _ => ⟨movesOf_buildWarnings useJump usePlatformSuffix,
        (not_mem_buildWarnings useJump usePlatformSuffix).1⟩, fun h => ?_⟩
    simp at h
  · have hpass : ∀ v, application.scieJump.bind (fun sj => sj.version) = some v →
        SJVersion.lt v ⟨0, 9, 0⟩ = false := by
      intro v hv
      by_contra hne
      exact hgate ⟨v, hv, by revert hne; cases SJVersion.lt v ⟨0, 9, 0⟩ <;> simp⟩
    rw [_build_pass application current usePlatformSuffix preserveSandbox useJump
        assembleFn hpass]
    exact buildAssemble_moves_spec preserveSandbox
      (narrowedPlatforms application
        (PlatformInfo.create application usePlatformSuffix current) useJump
        usePlatformSuffix)
      assembleFn (buildWarnings useJump usePlatformSuffix)
      (movesOf_buildWarnings useJump usePlatformSuffix)
      (not_mem_buildWarnings useJump usePlatformSuffix).1

/-- C4 witness: when assembly fails, nothing is moved and the destination
directory is not created. -/
theorem c4_no_partial_output_witness :
    movesOf (_build exampleApp Platform.linux_x86_64 false false false fun _ =>
        Except.error "assembly failed").1 = [] ∧
      BuildEvent.mkdirDestDir ∉
        (_build exampleApp Platform.linux_x86_64 false false false fun _ =>
          Except.error "assembly failed").1 :=
  (c4_no_partial_output exampleApp Platform.linux_x86_64 false false false fun _ =>
      Except.error "assembly failed").1 "assembly failed" rfl

/-- C10: a declared scie-jump version strictly below 0.9.0 makes `_build`
stop with an error naming the requested version, before the sandbox is
created or any assembly starts; with no declared version, or a version of
at least 0.9.0, the gate passes and the build enters the sandbox and
assembles. -/
theorem c10_scie_jump_version_gate (application : Application) (current : Platform)
    (usePlatformSuffix preserveSandbox useJump : Bool)
    (assembleFn : Finset Platform → Except String AssemblyInfo) :
    (∀ v, application.scieJump.bind (fun sj => sj.version) = some v →
        SJVersion.lt v ⟨0, 9, 0⟩ = true →
        (_build application current usePlatformSuffix preserveSandbox useJump
              assembleFn).2 = Except.error (scieJumpVersionError v) ∧
          BuildEvent.createSandbox ∉
            (_build application current usePlatformSuffix preserveSandbox useJump
              assembleFn).1 ∧
          BuildEvent.assembleScies ∉
            (_build application current usePlatformSuffix preserveSandbox useJump
              assembleFn).1) ∧
      ((∀ v, application.scieJump.bind (fun sj => sj.version) = some v →
          SJVersion.lt v ⟨0, 9, 0⟩ = false) →
        BuildEvent.createSandbox ∈
            (_build application current usePlatformSuffix preserveSandbox useJump
              assembleFn).1 ∧
          BuildEvent.assembleScies ∈
            (_build application current usePlatformSuffix preserveSandbox useJump
              assembleFn).1) := by
  constructor
  · intro v hv hlt
    rw [_build_gate application current usePlatformSuffix preserveSandbox useJump
        assembleFn v hv hlt]
    exact ⟨rfl, (not_mem_buildWarnings useJump usePlatformSuffix).2.1,
      (not_mem_buildWarnings useJump usePlatformSuffix).2.2⟩
  · intro hpass
    rw [_build_pass application current usePlatformSuffix preserveSandbox useJump
        assembleFn hpass]
    obtain ⟨h1, h2⟩ := mem_buildAssemble_events preserveSandbox
      (narrowedPlatforms application
        (PlatformInfo.create application usePlatformSuffix current) useJump
        usePlatformSuffix)
      assembleFn
    unfold withWarnings
    exact ⟨List.mem_append_right _ h1, List.mem_append_right _ h2⟩

/-- An application declaring a scie-jump version below 0.9.0. -/
def oldJumpApp : Application :=
  { exampleApp with scieJump := some { version := some ⟨0, 8, 0⟩ } }

/-- C10 witness: a requested scie-jump 0.8.0 aborts the build, naming the
version, with no sandbox or assembly event; `exampleApp` (no declared
version) reaches the sandbox and assembly. -/
theorem c10_scie_jump_version_gate_witness :
    ((_build oldJumpApp Platform.linux_x86_64 false false false fun _ =>
          Except.ok { scies := [], nativeJump := "scie-jump" }).2 =
        Except.error (scieJumpVersionError ⟨0, 8, 0⟩) ∧
      BuildEvent.createSandbox ∉
        (_build oldJumpApp Platform.linux_x86_64 false false false fun _ =>
          Except.ok { scies := [], nativeJump := "scie-jump" }).1 ∧
      BuildEvent.assembleScies ∉
        (_build oldJumpApp Platform.linux_x86_64 false false false fun _ =>
          Except.ok { scies := [], nativeJump := "scie-jump" }).1) ∧
    BuildEvent.createSandbox ∈
      (_build exampleApp Platform.linux_x86_64 false false false fun _ =>
        Except.ok { scies := [], nativeJump := "scie-jump" }).1 :=
  ⟨(c10_scie_jump_version_gate oldJumpApp Platform.linux_x86_64 false false false
        (fun _ => Except.ok { scies := [], nativeJump := "scie-jump" })).1
      ⟨0, 8, 0⟩ rfl rfl,
    ((c10_scie_jump_version_gate exampleApp Platform.linux_x86_64 false false false
          (fun _ => Except.ok { scies := [], nativeJump := "scie-jump" })).2
        (fun _ hv => nomatch hv)).1⟩

/-- A list is pointwise related to its image under a map. -/
theorem forall₂_map_of_forall {α β : Type} (R : α → β → Prop) (f : α → β)
    (l : List α) (h : ∀ a ∈ l, R a (f a)) : List.Forall₂ R l (l.map f) := by
  induction l with
  | nil => simp
  | cons a l ih =>
      simp only [List.map_cons, List.forall₂_cons]
      exact ⟨h a (List.mem_cons_self a l), ih fun b hb => h b (List.mem_cons_of_mem a hb)⟩

/-- The interpreters used as a concrete instance. -/
def exampleInterpreters : List Interpreter :=
  [{ id := "cpython", provider := "PythonBuildStandalone", version := "3.11", lazy := false }]

/-- The files used as a concrete instance: a URL-sourced file and a
sourceless file. -/
def exampleFiles : List File :=
  [{ id := "data.txt", digest := some ⟨137, "abcd1234"⟩, source := Source.url false },
    { id := "config", digest := none, source := Source.none }]

/-- C6: an override set holding any id that is not toggle-eligible (no
matching interpreter or URL-sourced file) makes the lift pipeline fail with
an error naming that id, before any download or sandbox event, regardless
of the other ids in the set; when every override id is toggle-eligible the
classification succeeds, inverting exactly the listed ids' lazy flags and
keeping every other declared value. -/
theorem c6_lazy_override_validation (interpreters : List Interpreter)
    (files : List File) (overrides : Finset String) :
    (∀ id ∈ overrides, toggleEligible interpreters files id = false →
        (liftPipeline interpreters files overrides).1 = [] ∧
          ∃ bad, (liftPipeline interpreters files overrides).2 = Except.error bad ∧
            id ∈ bad) ∧
      ((∀ id ∈ overrides, toggleEligible interpreters files id = true) →
        ∃ is fs,
          (liftPipeline interpreters files overrides).2 = Except.ok (is, fs) ∧
            List.Forall₂ (fun i i' : Interpreter =>
                i'.id = i.id ∧ i'.provider = i.provider ∧ i'.version = i.version ∧
                  i'.lazy = if i.id ∈ overrides then !i.lazy else i.lazy)
              interpreters is ∧
            List.Forall₂ (fun f f' : File =>
                f'.id = f.id ∧ f'.digest = f.digest ∧
                  f'.source =
                    if f.id ∈ overrides then f.source.invertLazy else f.source)
              files fs) := by
  constructor
  · intro id hid hbad
    have hmem : id ∈ (overrides.filter fun id =>
        !toggleEligible interpreters files id).sort (· ≤ ·) := by
      rw [Finset.mem_sort]
      rw [Finset.mem_filter]
      exact ⟨hid, by simp [hbad]⟩
    have hne : ((overrides.filter fun id =>
        !toggleEligible interpreters files id).sort (· ≤ ·)).isEmpty = false := by
      rcases hsort : (overrides.filter fun id =>
          !toggleEligible interpreters files id).sort (· ≤ ·) with _ | ⟨a, l⟩
      · rw [hsort] at hmem
        exact absurd hmem (List.not_mem_nil id)
      · rfl
    unfold liftPipeline applyLazinessOverrides
    rw [hne]
    exact ⟨rfl, _, rfl, hmem⟩
  · intro hok
    have hempty : (overrides.filter fun id =>
        !toggleEligible interpreters files id) = ∅ := by
      rw [Finset.filter_eq_empty_iff]
      intro x hx
      simp [hok x hx]
    unfold liftPipeline applyLazinessOverrides
    rw [hempty]
    rw [Finset.sort_empty]
    refine ⟨_, _, rfl, ?_, ?_⟩
    · refine forall₂_map_of_forall _ _ interpreters fun i _ => ?_
      by_cases hi : i.id ∈ overrides <;> simp [hi]
    · refine forall₂_map_of_forall _ _ files fun f _ => ?_
      by_cases hf : f.id ∈ overrides <;> simp [hf]

/-- C6 witness: the override set `{"missing-id"}` (no interpreter or file
has that id) fails naming `missing-id` with no download or sandbox event;
the eligible set `{"data.txt"}` succeeds, inverting only that file's lazy
flag. -/
theorem c6_lazy_override_validation_witness :
    ((liftPipeline exampleInterpreters exampleFiles {"missing-id"}).1 = [] ∧
      ∃ bad, (liftPipeline exampleInterpreters exampleFiles {"missing-id"}).2 =
          Except.error bad ∧ "missing-id" ∈ bad) ∧
    ∃ is fs, (liftPipeline exampleInterpreters exampleFiles {"data.txt"}).2 =
        Except.ok (is, fs) ∧
      List.Forall₂ (fun i i' : Interpreter =>
          i'.id = i.id ∧ i'.provider = i.provider ∧ i'.version = i.version ∧
            i'.lazy = if i.id ∈ ({"data.txt"} : Finset String) then !i.lazy else i.lazy)
        exampleInterpreters is ∧
      List.Forall₂ (fun f f' : File =>
          f'.id = f.id ∧ f'.digest = f.digest ∧
            f'.source =
              if f.id ∈ ({"data.txt"} : Finset String) then f.source.invertLazy
              else f.source)
        exampleFiles fs :=
  ⟨(c6_lazy_override_validation exampleInterpreters exampleFiles {"missing-id"}).1
      "missing-id" (by decide) (by decide),
    (c6_lazy_override_validation exampleInterpreters exampleFiles {"data.txt"}).2
      (by decide)⟩

/-- Appending to a fixed string on the left is injective. -/
theorem string_append_left_cancel {s a b : String} (h : s ++ a = s ++ b) :
    a = b := by
  have hd : (s ++ a).data = (s ++ b).data := congrArg String.data h
  rw [String.data_append, String.data_append] at hd
  exact String.ext (List.append_cancel_left hd)

/-- C7: for every requested algorithm, exactly one sidecar is produced
whose file name is `<output-name>.<algorithm>`, and every produced sidecar
is named that way and holds the hex digest of the binary under its
algorithm followed by ` *<output-name>` and a newline, so re-hashing the
binary reproduces the recorded digest. -/
theorem c7_checksum_sidecars (hashFn : String → List Nat → String)
    (hashNames : List String) (outputName : String) (binary : List Nat)
    (a : String) (ha : a ∈ hashNames) :
    (checksumSidecars hashFn hashNames outputName binary).countP
        (fun sc => sc.fileName == outputName ++ "." ++ a) = 1 ∧
      ∀ sc ∈ checksumSidecars hashFn hashNames outputName binary,
        sc.fileName = outputName ++ "." ++ sc.algorithm ∧
          sc.content = hashFn sc.algorithm binary ++ " *" ++ outputName ++ "\n" := by
  constructor
  · unfold checksumSidecars
    rw [List.countP_map]
    have hpt : ∀ b ∈ hashNames.dedup,
        ((fun sc => sc.fileName == outputName ++ "." ++ a) ∘ fun b =>
            ({ output := outputName, algorithm := b,
                content := hashFn b binary ++ " *" ++ outputName ++ "\n" } : Sidecar)) b =
          (b == a) := by
      intro b _
      simp only [Function.comp, Sidecar.fileName]
      rcases hba : b == a with _ | _
      · rcases hfull : (outputName ++ "." ++ b) == (outputName ++ "." ++ a) with _ | _
        · rfl
        · have : outputName ++ "." ++ b = outputName ++ "." ++ a := by
            exact eq_of_beq hfull
          have hb : b = a := string_append_left_cancel this
          rw [hb] at hba
          simp at hba
      · have hb : b = a := eq_of_beq hba
        rw [hb]
        simp
    rw [List.countP_congr fun x hx => by rw [hpt x hx]]
    have hcnt : List.countP (fun b => b == a) hashNames.dedup =
        hashNames.dedup.count a := rfl
    rw [hcnt, List.count_eq_one_of_mem hashNames.nodup_dedup
      (List.mem_dedup.mpr ha)]
  · intro sc hsc
    unfold checksumSidecars at hsc
    obtain ⟨b, _, rfl⟩ := List.mem_map.mp hsc
    exact ⟨rfl, rfl⟩

/-- C7 witness: with a concrete digest function and `["sha256"]` requested
on an output named `app`, exactly one sidecar is named `app.sha256`. -/
theorem c7_checksum_sidecars_witness :
    ("sha256" ∈ ["sha256"]) ∧
      (checksumSidecars (fun _ _ => "00") ["sha256"] "app" [1]).countP
          (fun sc => sc.fileName == "app" ++ "." ++ "sha256") = 1 :=
  ⟨by decide,
    (c7_checksum_sidecars (fun _ _ => "00") ["sha256"] "app" [1] "sha256"
        (by decide)).1⟩

end Theorems

end Science
